import Mathlib

/-!
Verification development for the superglue request/transform pipeline.

The development shallowly embeds the executable core of the repository:

* the JSON value universe handled by the request executor (`Json`),
  with the structural equality used to model `JSON.stringify` comparison;
* the LLM-client helpers (`isOSeriesModel`, the per-site temperature
  computations of `generateApiConfig`, `generateMapping` and
  `attemptSchemaGeneration`);
* the request executor `callEndpoint` (template-variable validation,
  request-body construction, pagination loop, data-path navigation,
  response-shape heuristics); the HTTP transport is abstracted as a
  total oracle `fetch` from the iteration index to the decoded response
  body, and the interpolate-then-`JSON.parse` step applied to a present
  request body — whose throw aborts the iteration before the HTTP
  call — is abstracted likewise as an oracle `parseBody` from the
  iteration index to the parse result; interpolation of the other
  request fields cannot throw and no claim depends on their text;
* the transform synthesizer `generateMapping` retry loop, with the LLM
  completion and the jsonata apply-and-validate step
  (`applyJsonataWithValidation`, whose source lives outside the provided
  files) abstracted as oracles;
* the id assignment of `prepareTransform`, `prepareExtract` and
  `prepareEndpoint`, with `md5` abstracted as a string function and the
  `crypto.randomUUID` value passed in explicitly;
* the deduplicating job `Queue` as a labelled transition system.
-/

/-! ## JSON values -/

/-- JSON values as decoded from an HTTP response body. -/
inductive Json where
  | null
  | bool (b : Bool)
  | num (n : Int)
  | str (s : String)
  | arr (xs : List Json)
  | obj (fields : List (String × Json))
  deriving Repr

mutual

/-- Structural equality of JSON values; models comparing
`JSON.stringify` outputs of two values. -/
def Json.beq : Json → Json → Bool
  | .null, .null => true
  | .bool a, .bool b => a == b
  | .num a, .num b => a == b
  | .str a, .str b => a == b
  | .arr xs, .arr ys => Json.beqList xs ys
  | .obj xs, .obj ys => Json.beqObj xs ys
  | _, _ => false

/-- Pointwise structural equality of JSON arrays. -/
def Json.beqList : List Json → List Json → Bool
  | [], [] => true
  | x :: xs, y :: ys => Json.beq x y && Json.beqList xs ys
  | _, _ => false

/-- Pointwise structural equality of JSON object field lists. -/
def Json.beqObj : List (String × Json) → List (String × Json) → Bool
  | [], [] => true
  | (k1, v1) :: xs, (k2, v2) :: ys => k1 == k2 && Json.beq v1 v2 && Json.beqObj xs ys
  | _, _ => false

end

/-- JavaScript truthiness of a JSON value (`null`, `false`, `0` and the
empty string are falsy; arrays and objects are always truthy). -/
def jsTruthy : Json → Bool
  | .null => false
  | .bool b => b
  | .num n => n != 0
  | .str s => s != ""
  | .arr _ => true
  | .obj _ => true

/-- First field with the given key in a JSON object field list. -/
def lookupField : List (String × Json) → String → Option Json
  | [], _ => none
  | (k, v) :: rest, key => if k == key then some v else lookupField rest key

/-- JavaScript property access `value[part]` on a JSON value: field
lookup on objects, numeric indexing on arrays, `undefined` otherwise. -/
def jsGet : Json → String → Option Json
  | .obj fields, key => lookupField fields key
  | .arr xs, key =>
      match key.toNat? with
      | some i => xs.get? i
      | none => none
  | _, _ => none

/-- Whether a JSON value is an array. -/
def isArr : Json → Bool
  | .arr _ => true
  | _ => false

/-! ## LLM client helpers (`llm-client.ts`, `schema.ts`) -/

/-- Whether the first list starts with the second one. -/
def listStartsWith : List Char → List Char → Bool
  | _, [] => true
  | [], _ :: _ => false
  | c :: cs, d :: ds => c == d && listStartsWith cs ds

/-- Whether the second list occurs as a contiguous segment of the
first; models `String.prototype.includes`. -/
def listIncludes : List Char → List Char → Bool
  | [], sub => listStartsWith [] sub
  | c :: cs, sub => listStartsWith (c :: cs) sub || listIncludes cs sub

/-- Substring containment on strings, as in `String.prototype.includes`. -/
def strIncludes (s sub : String) : Bool := listIncludes s.data sub.data

/-- String starts-with test, as in `String.prototype.startsWith`. -/
def strStartsWith (s p : String) : Bool := listStartsWith s.data p.data

/-- Embeds `isOSeriesModel` from `llm-client.ts`: true when the model
name contains `gpt-4o` or `o3`. -/
def isOSeriesModel (modelName : String) : Bool :=
  strIncludes modelName "gpt-4o" || strIncludes modelName "o3"

/-- Temperature passed by `generateApiConfig` (endpoint synthesis):
omitted for o-series models, otherwise `min(retryCount * 0.1, 1)`. -/
def apiConfigTemperature (modelName : String) (retryCount : Nat) : Option ℚ :=
  if isOSeriesModel modelName then none
  else some (min ((retryCount : ℚ) * (1 / 10)) 1)

/-- Temperature passed by `generateMapping` (transform synthesis):
omitted for o-series models, otherwise `min(retry * 0.1, 1)`. -/
def mappingTemperature (modelName : String) (retry : Nat) : Option ℚ :=
  if isOSeriesModel modelName then none
  else some (min ((retry : ℚ) * (1 / 10)) 1)

/-- Temperature passed by `attemptSchemaGeneration` (schema
generation): the local `temperature` variable is `min(0.3 * retry, 1)`
for o-series models on a retry and `0` otherwise, and the request sends
`0` for the exact model `o3-mini`, the `temperature` variable for models
starting with `gpt-4`, and omits the parameter for all other models. -/
def schemaGenTemperature (modelName : String) (retry : Nat) : Option ℚ :=
  let temperature : ℚ :=
    if isOSeriesModel modelName && decide (0 < retry) then min ((retry : ℚ) * (3 / 10)) 1
    else 0
  if modelName == "o3-mini" then some 0
  else if strStartsWith modelName "gpt-4" then some temperature
  else none

/-! ## Request executor (`callEndpoint` and `validateVariables`) -/

/-- Pagination strategies of the shared `PaginationType` enum. -/
inductive PaginationType where
  | offsetBased
  | pageBased
  | disabled
  deriving DecidableEq, Repr

/-- Pagination settings of an `ApiConfig`; `pageSize` is optional in
the generated config. -/
structure Pagination where
  type : PaginationType
  pageSize : Option Int
  deriving DecidableEq, Repr

/-- The fields of an `ApiConfig` that the executor reads. String-valued
fields may contain `{name}` placeholders. -/
structure ApiConfig where
  urlHost : String
  urlPath : Option String := none
  method : String := "GET"
  headers : List (String × String) := []
  queryParams : List (String × String) := []
  body : Option String := none
  dataPath : Option String := none
  pagination : Option Pagination := none
  deriving Repr

/-- Word characters of the JavaScript regex class `\w`. -/
def isWordChar (c : Char) : Bool := c.isAlphanum || c == '_'

/-- Scanner for the regex `/\x7b(\w+)\x7d/g`: at an opening brace it
reads the longest word-character run and accepts when a closing brace
follows; matches are non-overlapping and scanned left to right. The
fuel argument equals the remaining string length, so it never runs out
before the character list is consumed. -/
def findTemplateVarsGo : Nat → List Char → List String
  | 0, _ => []
  | _, [] => []
  | fuel + 1, c :: rest =>
      if c == '\x7b' then
        let w := rest.takeWhile isWordChar
        match rest.dropWhile isWordChar with
        | d :: tail =>
            if d == '\x7d' && !w.isEmpty then String.mk w :: findTemplateVarsGo fuel tail
            else findTemplateVarsGo fuel rest
        | [] => []
      else findTemplateVarsGo fuel rest

/-- Embeds the `findTemplateVars` helper of `validateVariables`: all
`\x7bname\x7d` template variables of a string, empty for the empty
string. -/
def findTemplateVars (s : String) : List String :=
  if s == "" then [] else findTemplateVarsGo s.length s.data

/-- Template variables referenced by a config, collected from
`urlPath`, the query-parameter values, the header values and `body`, in
that order; absent optional strings stringify to `"undefined"`, which
carries no template variable. -/
def templateVarSources (config : ApiConfig) : List String :=
  findTemplateVars (config.urlPath.getD "undefined")
    ++ (config.queryParams.map (fun kv => kv.2)).flatMap findTemplateVars
    ++ (config.headers.map (fun kv => kv.2)).flatMap findTemplateVars
    ++ findTemplateVars (config.body.getD "undefined")

/-- Embeds `validateVariables`: the referenced template variables that
are neither in `vars` nor among the reserved names `page`, `limit`,
`offset`. -/
def validateVariables (config : ApiConfig) (vars : List String) : List String :=
  let vars2 := vars ++ ["page", "limit", "offset"]
  (templateVarSources config).filter (fun v => decide (v ∉ vars2))

/-- Default-corrected page size: `pagination.pageSize || 50`, where a
missing or zero page size falls back to 50. -/
def pageSizeOrDefault (ps : Option Int) : Int :=
  match ps with
  | some n => if n == 0 then 50 else n
  | none => 50

/-- Result of the per-iteration pagination bookkeeping at the top of
the `callEndpoint` loop body. -/
structure PageStep where
  paginationVars : List (String × Int)
  nextPage : Nat
  nextOffset : Int
  hasMore : Bool
  deriving Repr

/-- Embeds the pagination-variable block of the loop body: page-based
pagination binds `page` and `limit` and increments the page, offset-based
pagination binds `offset` and `limit` and advances the offset by the
(default-corrected) page size, and any other configuration clears
`hasMore`. -/
def stepPagination (config : ApiConfig) (page : Nat) (offset : Int) : PageStep :=
  match config.pagination with
  | some p =>
      match p.type with
      | .pageBased =>
          { paginationVars := [("page", (page : Int)), ("limit", pageSizeOrDefault p.pageSize)],
            nextPage := page + 1, nextOffset := offset, hasMore := true }
      | .offsetBased =>
          { paginationVars := [("offset", offset), ("limit", pageSizeOrDefault p.pageSize)],
            nextPage := page, nextOffset := offset + pageSizeOrDefault p.pageSize, hasMore := true }
      | .disabled =>
          { paginationVars := [], nextPage := page, nextOffset := offset, hasMore := false }
  | none => { paginationVars := [], nextPage := page, nextOffset := offset, hasMore := false }

/-- The comparison `responseData.length < endpoint.pagination?.pageSize`;
false when the page size is absent, as comparison with `undefined` is. -/
def lenLtPageSize (pagination : Option Pagination) (len : Nat) : Bool :=
  match pagination with
  | some p =>
      match p.pageSize with
      | some n => decide ((len : Int) < n)
      | none => false
  | none => false

/-- The `dataPath` navigation of `callEndpoint`: walk the dot-separated
segments, stepping into a property only when it is truthy, skipping a
falsy `$` segment, and stopping at the current value on any other miss. -/
def navPath : Json → List String → Json
  | j, [] => j
  | j, part :: rest =>
      match jsGet j part with
      | some v =>
          if jsTruthy v then navPath v rest
          else if part == "$" then navPath j rest
          else j
      | none => if part == "$" then navPath j rest else j

/-- Data-path extraction applied to a decoded response: skipped when the
`dataPath` field is absent or empty. -/
def extractPath (dataPath : Option String) (j : Json) : Json :=
  match dataPath with
  | none => j
  | some s => if s == "" then j else navPath j (s.splitOn ".")

/-- Result of the response-shape heuristics at the bottom of the loop
body. -/
structure RespStep where
  newResults : List Json
  hasMore : Bool
  deriving Repr

/-- Embeds the accumulation block of the loop body: an array page first
clears `hasMore` when shorter than the configured page size, is dropped
(terminating the loop) when structurally equal to the accumulated
results and concatenated otherwise; a truthy non-array value is taken
as the single result when nothing is accumulated yet; anything else
terminates the loop with the accumulated results unchanged. -/
def processResponse (pagination : Option Pagination) (respData : Json)
    (acc : List Json) (hasMore : Bool) : RespStep :=
  match respData with
  | .arr xs =>
      let hm1 := if lenLtPageSize pagination xs.length then false else hasMore
      if Json.beqList xs acc then { newResults := acc, hasMore := false }
      else { newResults := acc ++ xs, hasMore := hm1 }
  | other =>
      if jsTruthy other && acc.isEmpty then { newResults := acc ++ [other], hasMore := false }
      else { newResults := acc, hasMore := false }

/-- Outcome of a `callEndpoint` run: the unresolved-variables error or
the body `JSON.parse` error, each with the number of HTTP calls already
made, or the returned data together with the number of completed loop
iterations (each completed iteration performs exactly one HTTP call). -/
inductive CallOutcome where
  | unresolvedVariables (names : List String) (callsMade : Nat)
  | bodyParseError (callsMade : Nat)
  | success (data : Json) (iterations : Nat)
  deriving Repr

/-- Number of HTTP calls performed in an outcome. -/
def callsOf : CallOutcome → Nat
  | .unresolvedVariables _ n => n
  | .bodyParseError n => n
  | .success _ n => n

/-- Whether the outcome is a normal return. -/
def isSuccess : CallOutcome → Bool
  | .unresolvedVariables _ _ => false
  | .bodyParseError _ => false
  | .success _ _ => true

/-- The final `return` of `callEndpoint`: a single accumulated element
is unwrapped, anything else is returned as an array. -/
def finishLoop (acc : List Json) (iterations : Nat) : CallOutcome :=
  .success (match acc with | [x] => x | _ => .arr acc) iterations

/-- The request-body construction of the loop body:
`endpoint.body ? JSON.parse(replaceVariables(endpoint.body, requestVars)) : \x7b\x7d`.
With no configured body the empty object is used and nothing can throw;
with a body present, `parseBody iterDone` abstracts interpolating it
with the iteration's request variables and running `JSON.parse`,
returning `none` when the parse throws. -/
def buildBody (config : ApiConfig) (parseBody : Nat → Option Json) (iterDone : Nat) :
    Option Json :=
  match config.body with
  | none => some (.obj [])
  | some _ => parseBody iterDone

/-- Embeds the `while (hasMore && loopCounter <= 500)` body of
`callEndpoint`. `remaining` counts the loop-guard budget still left
(entered with 501, since the counter starts at 0 and the guard admits
counter values 0 through 500); `iterDone` counts completed iterations.
Each iteration computes the pagination variables, validates the
template variables of the config against the bound names, aborts with
the unresolved list before the HTTP call when it is non-empty, then
builds the request body, aborting with the `JSON.parse` error — again
before the HTTP call — when an interpolated body fails to parse, and
otherwise fetches, extracts and accumulates the page. -/
def loopGo (config : ApiConfig) (varNames : List String) (parseBody : Nat → Option Json)
    (fetch : Nat → Json) :
    Nat → Nat → Nat → Int → List Json → CallOutcome
  | 0, iterDone, _, _, acc => finishLoop acc iterDone
  | remaining + 1, iterDone, page, offset, acc =>
      let step := stepPagination config page offset
      let invalid := validateVariables config (step.paginationVars.map (fun kv => kv.1) ++ varNames)
      if invalid.isEmpty then
        match buildBody config parseBody iterDone with
        | none => .bodyParseError iterDone
        | some _ =>
            let respData := extractPath config.dataPath (fetch iterDone)
            let processed := processResponse config.pagination respData acc step.hasMore
            if processed.hasMore then
              loopGo config varNames parseBody fetch remaining (iterDone + 1) step.nextPage
                step.nextOffset processed.newResults
            else finishLoop processed.newResults (iterDone + 1)
      else .unresolvedVariables invalid iterDone

/-- Embeds `callEndpoint`: the pagination loop entered with `page = 1`,
`offset = 0`, an empty accumulator and the full loop-guard budget.
`varNames` are the keys of the merged payload and credentials objects,
`parseBody` abstracts the interpolate-then-parse of a configured body,
and `fetch` abstracts the HTTP transport and returns the decoded
response body of each successive call. -/
def callEndpoint (config : ApiConfig) (varNames : List String) (parseBody : Nat → Option Json)
    (fetch : Nat → Json) : CallOutcome :=
  loopGo config varNames parseBody fetch 501 0 1 0 []

/-! ## Transform synthesizer (`generateMapping` in `transform.ts`) -/

/-- Chat message roles. -/
inductive Role where
  | system
  | user
  | assistant
  deriving DecidableEq, Repr

/-- A chat message. -/
structure Msg where
  role : Role
  content : String
  deriving DecidableEq, Repr

/-- The parsed LLM response of a mapping attempt. -/
structure MappingContent where
  jsonata : String
  confidence : Int
  confidence_reasoning : String
  deriving DecidableEq, Repr

/-- Serialized form of a parsed mapping response, standing in for the
raw assistant completion string that is pushed onto the message log. -/
def mappingContentToString (c : MappingContent) : String :=
  "jsonata: " ++ c.jsonata ++ ", confidence: " ++ toString c.confidence
    ++ ", confidence_reasoning: " ++ c.confidence_reasoning

/-- Whether an `Except` value is a success. -/
def exceptIsOk : Except String Unit → Bool
  | .ok _ => true
  | .error _ => false

/-- One body of the `try` block of `generateMapping`: call the LLM
oracle on the current messages (a failed completion or unparsable
response surfaces as an error before anything is appended), push the
assistant response, then apply-and-validate the returned jsonata
through the `validate` oracle (modelling `applyJsonataWithValidation`);
a validation failure surfaces as the thrown `Validation failed` error.
Returns the grown message log and the attempt result. -/
def mappingAttempt (llm : List Msg → Except String MappingContent)
    (validate : String → Except String Unit) (messages : List Msg) :
    List Msg × Except String MappingContent :=
  match llm messages with
  | .error e => (messages, .error e)
  | .ok content =>
      let messages2 := messages ++ [⟨.assistant, mappingContentToString content⟩]
      match validate content.jsonata with
      | .ok _ => (messages2, .ok content)
      | .error err => (messages2, .error ("Validation failed: " ++ err))

/-- Embeds the retry recursion of `generateMapping`. The code enters
with `retry = 0` and retries while `retry < 5`, so `remaining` counts
the attempts still allowed (entered with 6, and the retry guard
`retry < 5` becomes `0 < remaining - 1`). On a failed attempt the error
message is appended as a user message before recursing. The second
component counts the LLM attempts actually made. -/
def generateMappingGo (llm : List Msg → Except String MappingContent)
    (validate : String → Except String Unit) :
    Nat → List Msg → Option MappingContent × Nat
  | 0, _ => (none, 0)
  | remaining + 1, messages =>
      let att := mappingAttempt llm validate messages
      match att.2 with
      | .ok content => (some content, 1)
      | .error e =>
          if 0 < remaining then
            let r := generateMappingGo llm validate remaining (att.1 ++ [⟨.user, e⟩])
            (r.1, r.2 + 1)
          else (none, 1)

/-- Embeds `generateMapping`: seed the conversation with the system
prompt and the user prompt and run at most 6 attempts (the initial one
plus 5 retries); `none` is the `null` returned after exhaustion. -/
def generateMapping (llm : List Msg → Except String MappingContent)
    (validate : String → Except String Unit) (systemPrompt userPrompt : String) :
    Option MappingContent :=
  (generateMappingGo llm validate 6 [⟨.system, systemPrompt⟩, ⟨.user, userPrompt⟩]).1

/-- Number of LLM attempts made by a `generateMapping` run. -/
def generateMappingAttempts (llm : List Msg → Except String MappingContent)
    (validate : String → Except String Unit) (systemPrompt userPrompt : String) : Nat :=
  (generateMappingGo llm validate 6 [⟨.system, systemPrompt⟩, ⟨.user, userPrompt⟩]).2

/-! ## Config id assignment at synthesis -/

/-- The canonicalized hash pre-image
`JSON.stringify(\x7brequest: input, payloadKeys: getSchemaFromData(payload)\x7d)`
shared by `prepareTransform` and `prepareExtract`, built from the
canonical serializations of the input and of the payload schema. -/
def hashSource (request payloadSchema : String) : String :=
  "\x7b\"request\":" ++ request ++ ",\"payloadKeys\":" ++ payloadSchema ++ "\x7d"

/-- Embeds the id assignment of `prepareTransform`: the `md5` digest of
the canonicalized (input, payload-schema) pair. -/
def prepareTransformId (md5 : String → String) (request payloadSchema : String) : String :=
  md5 (hashSource request payloadSchema)

/-- Embeds the id assignment of `prepareExtract`: the `md5` digest of
the canonicalized (input, payload-schema) pair. -/
def prepareExtractId (md5 : String → String) (request payloadSchema : String) : String :=
  md5 (hashSource request payloadSchema)

/-- Embeds the id assignment of `prepareEndpoint`: the value of
`crypto.randomUUID()`, passed in here as `uuid`; the input and payload
schema are ignored. -/
def prepareEndpointId (uuid : String) (_request _payloadSchema : String) : String :=
  uuid

/-! ## Job queue (`Queue` in the extract module) -/

/-- State of a `Queue` instance: the pending FIFO of job ids, the
in-flight id set (`jobSet`), and the job the single worker is currently
awaiting, if any. The `isProcessing` flag of the source guarantees a
single worker loop; the model enforces the same by having one `running`
slot. Tasks are identified by their id; their bodies do not affect the
queue state. -/
structure QueueState where
  queue : List String
  jobSet : List String
  running : Option String
  deriving DecidableEq, Repr

/-- Embeds `Queue.enqueue`: a no-op when the id is already in the
in-flight set, otherwise the job is appended to the FIFO and the id
added to the set. -/
def Queue.enqueue (st : QueueState) (id : String) : QueueState :=
  if id ∈ st.jobSet then st
  else { st with queue := st.queue ++ [id], jobSet := st.jobSet ++ [id] }

/-- Transitions of a `Queue` instance: an `enqueue` call, the worker
shifting the head job to start awaiting it, and the awaited task
resolving (successfully or not — `succeeded` is ignored), whereupon the
`finally` block removes the id from the in-flight set. -/
inductive QStep : QueueState → QueueState → Prop
  | enqueue (st : QueueState) (id : String) : QStep st (Queue.enqueue st id)
  | start (st : QueueState) (id : String) (rest : List String) :
      st.running = none → st.queue = id :: rest →
      QStep st { queue := rest, jobSet := st.jobSet, running := some id }
  | finish (st : QueueState) (id : String) (succeeded : Bool) :
      st.running = some id →
      QStep st { queue := st.queue, jobSet := st.jobSet.erase id, running := none }

/-- Queue invariant: pending ids are distinct members of the in-flight
set, the set itself has no duplicates, and a running id is in the set
but no longer pending. -/
def QInv (st : QueueState) : Prop :=
  st.queue.Nodup ∧ st.jobSet.Nodup ∧
  (∀ id ∈ st.queue, id ∈ st.jobSet) ∧
  (∀ id, st.running = some id → id ∈ st.jobSet ∧ id ∉ st.queue)

/-- Number of simultaneous occurrences of an id in flight: its pending
occurrences plus one if it is currently running. -/
def inFlight (st : QueueState) (id : String) : Nat :=
  st.queue.count id + (if st.running = some id then 1 else 0)

/-! ## Concrete instances used by witnesses and counterexamples -/

/-- A config whose body references the unbound variable `token`. -/
def cfgBad : ApiConfig :=
  { urlHost := "https://api.example.com", urlPath := some "/v1/items",
    body := some "\x7btoken\x7d" }

/-- A minimal config with no template variables and no pagination. -/
def cfgGood : ApiConfig :=
  { urlHost := "https://api.example.com" }

/-- A page-based config without a page size, used to drive the loop to
its iteration ceiling. -/
def cfgCeiling : ApiConfig :=
  { urlHost := "h", pagination := some ⟨.pageBased, none⟩ }

/-- Responses for the ceiling run: a singleton first page, then empty
pages forever, so the loop never terminates on its own. -/
def fetchCeiling : Nat → Json :=
  fun i => if i == 0 then .arr [.num 0] else .arr []

/-- A page-based config with page size 1. -/
def cfgPaged : ApiConfig :=
  { urlHost := "h", pagination := some ⟨.pageBased, some 1⟩ }

/-- Responses repeating the second page: pages `[0]`, `[1]`, `[1]`,
then empty. -/
def fetchRepeat : Nat → Json :=
  fun i => if i == 0 then .arr [.num 0] else if i ≤ 2 then .arr [.num 1] else .arr []

/-- A response oracle that always returns `null`. -/
def fetchNull : Nat → Json := fun _ => .null

/-- A response oracle that always returns the page `[1]`. -/
def fetchOne : Nat → Json := fun _ => .arr [.num 1]

/-- An offset-based config without a page size. -/
def cfgOffset : ApiConfig :=
  { urlHost := "h", pagination := some ⟨.offsetBased, none⟩ }

/-- An LLM oracle that always fails. -/
def llmFail : List Msg → Except String MappingContent := fun _ => .error "API Error"

/-- An LLM oracle that always returns a fixed mapping. -/
def llmConst : List Msg → Except String MappingContent :=
  fun _ => .ok ⟨"user.first", 95, "direct"⟩

/-- A validation oracle that accepts everything. -/
def validateOk : String → Except String Unit := fun _ => .ok ()

/-- A validation oracle that rejects everything. -/
def validateFail : String → Except String Unit := fun _ => .error "schema mismatch"

/-- A stand-in digest function for the abstract `md5` parameter. -/
def md5Stub (s : String) : String := "digest:" ++ s

/-- A config with no template variables whose body text `hello` is not
valid JSON. -/
def cfgNonJson : ApiConfig :=
  { urlHost := "https://api.example.com", body := some "hello" }

/-- Body-parse oracle for runs whose interpolated body never parses as
JSON (as for the placeholder-free body `hello`), and the unused oracle
for configs without a body. -/
def parseNone : Nat → Option Json := fun _ => none

/-- A queue state with `j1` currently running and nothing pending. -/
def qstRun : QueueState := ⟨[], ["j1"], some "j1"⟩

/-- The empty, idle queue state. -/
def qstIdle : QueueState := ⟨[], [], none⟩

/-! ## Helper lemmas -/

/-- Structural JSON equality is reflexive. -/
theorem Json.beq_refl (j : Json) : Json.beq j j = true := by
  induction j using Json.rec (motive_2 := fun xs => Json.beqList xs xs = true)
    (motive_3 := fun xs => Json.beqObj xs xs = true)
    (motive_4 := fun p => Json.beq p.2 p.2 = true) <;>
    simp_all [Json.beq, Json.beqList, Json.beqObj]

/-- Pointwise structural equality of JSON arrays is reflexive. -/
theorem Json.beqList_refl (xs : List Json) : Json.beqList xs xs = true := by
  induction xs with
  | nil => rfl
  | cons x xs ih => simp [Json.beqList, Json.beq_refl, ih]

/-- Adding already-reserved names in front of the bound-variable list
does not change the unresolved-variables computation. -/
theorem validateVariables_reserved_append (config : ApiConfig) (ks vars : List String)
    (h : ∀ k ∈ ks, k ∈ (["page", "limit", "offset"] : List String)) :
    validateVariables config (ks ++ vars) = validateVariables config vars := by
  unfold validateVariables
  refine List.filter_congr ?_
  intro v _
  simp only [decide_eq_decide, List.append_assoc, List.mem_append]
  constructor
  · intro hv hor
    exact hv (Or.inr hor)
  · intro hv hor
    rcases hor with hk | hor
    · exact hv (Or.inr (h v hk))
    · exact hv hor

/-- Every pagination variable key is one of the reserved names. -/
theorem stepPagination_keys (config : ApiConfig) (page : Nat) (offset : Int) :
    ∀ k ∈ (stepPagination config page offset).paginationVars.map (fun kv => kv.1),
      k ∈ (["page", "limit", "offset"] : List String) := by
  unfold stepPagination
  cases config.pagination with
  | none => simp
  | some p =>
      obtain ⟨pt, ps⟩ := p
      cases pt <;> simp

/-- One unresolved-variables loop step: with an unbound template
variable present, the iteration aborts before fetching. -/
theorem loopGo_succ_invalid (config : ApiConfig) (varNames : List String)
    (parseBody : Nat → Option Json) (fetch : Nat → Json)
    (remaining iterDone page : Nat) (offset : Int) (acc : List Json)
    (h : validateVariables config varNames ≠ []) :
    loopGo config varNames parseBody fetch (remaining + 1) iterDone page offset acc =
      .unresolvedVariables (validateVariables config varNames) iterDone := by
  have hk := stepPagination_keys config page offset
  have hv := validateVariables_reserved_append config
    ((stepPagination config page offset).paginationVars.map (fun kv => kv.1)) varNames hk
  have hne : (validateVariables config varNames).isEmpty = false := by
    simp [List.isEmpty_iff, h]
  simp [loopGo, hv, hne]

/-- One body-abort loop step: with all template variables bound but an
interpolated body that fails `JSON.parse`, the iteration throws before
the HTTP call. -/
theorem loopGo_succ_bodyfail (config : ApiConfig) (varNames : List String)
    (parseBody : Nat → Option Json) (fetch : Nat → Json)
    (remaining iterDone page : Nat) (offset : Int) (acc : List Json)
    (h : validateVariables config varNames = [])
    (hb : buildBody config parseBody iterDone = none) :
    loopGo config varNames parseBody fetch (remaining + 1) iterDone page offset acc =
      .bodyParseError iterDone := by
  have hk := stepPagination_keys config page offset
  have hv := validateVariables_reserved_append config
    ((stepPagination config page offset).paginationVars.map (fun kv => kv.1)) varNames hk
  simp only [loopGo, hv, h, List.isEmpty_nil, if_true, hb]

/-- One validated loop step: with all template variables bound and the
request body built, the iteration fetches, extracts and accumulates,
then continues or stops according to the shape heuristics. -/
theorem loopGo_succ_valid (config : ApiConfig) (varNames : List String)
    (parseBody : Nat → Option Json) (fetch : Nat → Json)
    (remaining iterDone page : Nat) (offset : Int) (acc : List Json) (b : Json)
    (h : validateVariables config varNames = [])
    (hb : buildBody config parseBody iterDone = some b) :
    loopGo config varNames parseBody fetch (remaining + 1) iterDone page offset acc =
      (let step := stepPagination config page offset
       let respData := extractPath config.dataPath (fetch iterDone)
       let processed := processResponse config.pagination respData acc step.hasMore
       if processed.hasMore then
         loopGo config varNames parseBody fetch remaining (iterDone + 1) step.nextPage
           step.nextOffset processed.newResults
       else finishLoop processed.newResults (iterDone + 1)) := by
  have hk := stepPagination_keys config page offset
  have hv := validateVariables_reserved_append config
    ((stepPagination config page offset).paginationVars.map (fun kv => kv.1)) varNames hk
  simp only [loopGo, hv, h, List.isEmpty_nil, if_true, hb]

/-- The loop performs at least as many calls as the iterations already
completed on entry. -/
theorem callsOf_loopGo_ge (config : ApiConfig) (varNames : List String)
    (parseBody : Nat → Option Json) (fetch : Nat → Json)
    (remaining : Nat) : ∀ (iterDone page : Nat) (offset : Int) (acc : List Json),
    iterDone ≤ callsOf (loopGo config varNames parseBody fetch remaining iterDone page offset acc) := by
  induction remaining with
  | zero => intro iterDone page offset acc; simp [loopGo, finishLoop, callsOf]
  | succ r ih =>
      intro iterDone page offset acc
      simp only [loopGo]
      split
      · split
        · simp [callsOf]
        · split
          · exact le_trans (Nat.le_succ _) (ih _ _ _ _)
          · simp [finishLoop, callsOf]
      · simp [callsOf]

/-- The loop performs at most `remaining` further calls. -/
theorem callsOf_loopGo_le (config : ApiConfig) (varNames : List String)
    (parseBody : Nat → Option Json) (fetch : Nat → Json)
    (remaining : Nat) : ∀ (iterDone page : Nat) (offset : Int) (acc : List Json),
    callsOf (loopGo config varNames parseBody fetch remaining iterDone page offset acc) ≤
      iterDone + remaining := by
  induction remaining with
  | zero => intro iterDone page offset acc; simp [loopGo, finishLoop, callsOf]
  | succ r ih =>
      intro iterDone page offset acc
      simp only [loopGo]
      split
      · split
        · simp [callsOf]
        · split
          · exact le_trans (ih _ _ _ _) (by omega)
          · simp [finishLoop, callsOf]
      · simp [callsOf]

/-- Once `hasMore` is cleared, the response-shape heuristics never set
it again. -/
theorem processResponse_hasMore_false (pagination : Option Pagination) (respData : Json)
    (acc : List Json) :
    (processResponse pagination respData acc false).hasMore = false := by
  unfold processResponse
  cases respData <;> simp only [] <;> (repeat' split) <;> simp

/-! ## Claim theorems -/

/-- C1 (amended): if some template variable of the config is bound
neither by the payload-and-credentials map nor by a reserved pagination
name, `callEndpoint` throws the unresolved-variables error listing
exactly those names with zero HTTP calls made; if every template
variable is bound, the iteration proceeds to build the request and
reaches the HTTP call whenever the request body is built (the config
has no body, or its interpolated body parses as JSON); with a bound
config whose interpolated body fails `JSON.parse`, the parse error is
thrown, again before any HTTP call. -/
theorem callEndpoint_validates_before_http (config : ApiConfig) (varNames : List String)
    (parseBody : Nat → Option Json) (fetch : Nat → Json) :
    (validateVariables config varNames ≠ [] →
      callEndpoint config varNames parseBody fetch =
        .unresolvedVariables (validateVariables config varNames) 0) ∧
    (validateVariables config varNames = [] →
      (buildBody config parseBody 0).isSome = true →
      1 ≤ callsOf (callEndpoint config varNames parseBody fetch)) ∧
    (validateVariables config varNames = [] → buildBody config parseBody 0 = none →
      callEndpoint config varNames parseBody fetch = .bodyParseError 0) := by
  refine ⟨?_, ?_, ?_⟩
  · intro h
    exact loopGo_succ_invalid config varNames parseBody fetch 500 0 1 0 [] h
  · intro h hbody
    obtain ⟨b, hb⟩ := Option.isSome_iff_exists.mp hbody
    show 1 ≤ callsOf (loopGo config varNames parseBody fetch (500 + 1) 0 1 0 [])
    rw [loopGo_succ_valid config varNames parseBody fetch 500 0 1 0 [] b h hb]
    dsimp only
    split
    · exact callsOf_loopGo_ge config varNames parseBody fetch 500 1 _ _ _
    · simp [finishLoop, callsOf]
  · intro h hb
    exact loopGo_succ_bodyfail config varNames parseBody fetch 500 0 1 0 [] h hb

/-- C1 (counterexample): every template variable of `cfgNonJson` is
bound (there are none), yet the run aborts at the body `JSON.parse`
with zero HTTP calls made — execution does not proceed to the HTTP
call. -/
theorem bound_vars_no_http_call :
    validateVariables cfgNonJson [] = [] ∧
      callEndpoint cfgNonJson [] parseNone fetchNull = .bodyParseError 0 := by
  constructor
  · decide
  · rfl

/-- C3 (amended): the pagination loop of `callEndpoint` performs at
most 501 iterations — the guard `loopCounter <= 500` with the counter
starting at 0 admits 501 passes, one more than the claimed 500. -/
theorem callEndpoint_iterations_le_501 (config : ApiConfig) (varNames : List String)
    (parseBody : Nat → Option Json) (fetch : Nat → Json) :
    callsOf (callEndpoint config varNames parseBody fetch) ≤ 501 := by
  simpa using callsOf_loopGo_le config varNames parseBody fetch 501 0 1 0 []

set_option maxRecDepth 100000 in
set_option maxHeartbeats 2000000 in
/-- C3 (counterexample): a page-based endpoint that keeps returning
fresh non-terminating pages is called 501 times, exceeding the claimed
ceiling of 500 iterations. -/
theorem callEndpoint_501_iterations :
    callsOf (callEndpoint cfgCeiling [] parseNone fetchCeiling) = 501 := by decide

/-- C6: with pagination absent or disabled — and the template variables
bound and the request body built, so that neither pre-call abort (the
unresolved-variables throw or the body `JSON.parse` throw) fires —
`callEndpoint` runs exactly one loop iteration, hence exactly one HTTP
call. -/
theorem callEndpoint_disabled_single_iteration (config : ApiConfig) (varNames : List String)
    (parseBody : Nat → Option Json) (fetch : Nat → Json)
    (hpag : config.pagination = none ∨ ∃ p, config.pagination = some p ∧ p.type = .disabled)
    (hvars : validateVariables config varNames = [])
    (hbody : (buildBody config parseBody 0).isSome = true) :
    isSuccess (callEndpoint config varNames parseBody fetch) = true ∧
      callsOf (callEndpoint config varNames parseBody fetch) = 1 := by
  have hstep : (stepPagination config 1 0).hasMore = false := by
    rcases hpag with h | ⟨p, hp, ht⟩
    · simp [stepPagination, h]
    · obtain ⟨pt, ps⟩ := p
      simp only at ht
      subst ht
      simp [stepPagination, hp]
  obtain ⟨b, hb⟩ := Option.isSome_iff_exists.mp hbody
  have hcall : callEndpoint config varNames parseBody fetch =
      finishLoop (processResponse config.pagination
        (extractPath config.dataPath (fetch 0)) [] false).newResults 1 := by
    show loopGo config varNames parseBody fetch (500 + 1) 0 1 0 [] = _
    rw [loopGo_succ_valid config varNames parseBody fetch 500 0 1 0 [] b hvars hb]
    simp [hstep, processResponse_hasMore_false]
  rw [hcall]
  exact ⟨rfl, rfl⟩

/-- C7 (amended): at any iteration of the `callEndpoint` loop, if the
newly fetched page (after data-path extraction) is identical to the
accumulated results, the loop terminates there without appending the
page again. -/
theorem page_equal_accumulated_terminates (config : ApiConfig) (varNames : List String)
    (parseBody : Nat → Option Json) (fetch : Nat → Json)
    (remaining iterDone page : Nat) (offset : Int) (acc : List Json) (b : Json)
    (hvars : validateVariables config varNames = [])
    (hbody : buildBody config parseBody iterDone = some b)
    (hpage : extractPath config.dataPath (fetch iterDone) = .arr acc) :
    loopGo config varNames parseBody fetch (remaining + 1) iterDone page offset acc =
      finishLoop acc (iterDone + 1) := by
  rw [loopGo_succ_valid config varNames parseBody fetch remaining iterDone page offset acc b
    hvars hbody]
  simp [hpage, processResponse, Json.beqList_refl]

/-- C7 (counterexample): a page identical to the previous page — but
not to the whole accumulation — does not stop the loop and is appended
again: with pages `[0]`, `[1]`, `[1]`, `[]` the run performs 4
iterations and returns `[0, 1, 1]`, duplicating the repeated page. -/
theorem repeated_page_appended :
    fetchRepeat 2 = fetchRepeat 1 ∧
      callEndpoint cfgPaged [] parseNone fetchRepeat =
        .success (.arr [.num 0, .num 1, .num 1]) 4 :=
  ⟨rfl, rfl⟩

/-- C9: with page-based or offset-based pagination and no configured
page size, every loop iteration binds the reserved variable `limit` to
50, and offset-based pagination advances `offset` by 50 per iteration. -/
theorem pagination_default_limit_50 (config : ApiConfig) (page : Nat) (offset : Int)
    (p : Pagination) (hp : config.pagination = some p) (hps : p.pageSize = none) :
    (p.type = .pageBased →
      (stepPagination config page offset).paginationVars =
          [("page", (page : Int)), ("limit", 50)] ∧
        (stepPagination config page offset).nextOffset = offset) ∧
    (p.type = .offsetBased →
      (stepPagination config page offset).paginationVars = [("offset", offset), ("limit", 50)] ∧
        (stepPagination config page offset).nextOffset = offset + 50) := by
  obtain ⟨pt, ps⟩ := p
  simp only at hps
  subst hps
  constructor <;> intro ht <;> simp only at ht <;> subst ht <;>
    simp [stepPagination, hp, pageSizeOrDefault]

/-- C10: at any iteration of the `callEndpoint` loop where results have
already accumulated, a non-array extracted response terminates the loop
and is excluded from the returned data: the loop returns exactly the
previously accumulated results. -/
theorem nonarray_after_results_terminates (config : ApiConfig) (varNames : List String)
    (parseBody : Nat → Option Json) (fetch : Nat → Json)
    (remaining iterDone page : Nat) (offset : Int) (acc : List Json) (b : Json)
    (hacc : acc ≠ [])
    (hvars : validateVariables config varNames = [])
    (hbody : buildBody config parseBody iterDone = some b)
    (hnotarr : isArr (extractPath config.dataPath (fetch iterDone)) = false) :
    loopGo config varNames parseBody fetch (remaining + 1) iterDone page offset acc =
      finishLoop acc (iterDone + 1) := by
  have hie : acc.isEmpty = false := by simp [List.isEmpty_iff, hacc]
  rw [loopGo_succ_valid config varNames parseBody fetch remaining iterDone page offset acc b
    hvars hbody]
  cases hresp : extractPath config.dataPath (fetch iterDone) <;>
    simp_all [processResponse, isArr]

/-- A successful mapping attempt has passed apply-and-validate. -/
theorem mappingAttempt_ok_validates (llm : List Msg → Except String MappingContent)
    (validate : String → Except String Unit) (messages : List Msg) (c : MappingContent)
    (h : (mappingAttempt llm validate messages).2 = .ok c) :
    exceptIsOk (validate c.jsonata) = true := by
  unfold mappingAttempt at h
  cases hl : llm messages with
  | error e => rw [hl] at h; simp at h
  | ok content =>
      rw [hl] at h
      dsimp only at h
      cases hv : validate content.jsonata with
      | ok u => rw [hv] at h; simp at h; subst h; simp [hv, exceptIsOk]
      | error err => rw [hv] at h; simp at h

/-- Any mapping returned by the retry recursion has passed
apply-and-validate. -/
theorem generateMappingGo_some_validates (llm : List Msg → Except String MappingContent)
    (validate : String → Except String Unit) (remaining : Nat) :
    ∀ (messages : List Msg) (c : MappingContent),
      (generateMappingGo llm validate remaining messages).1 = some c →
      exceptIsOk (validate c.jsonata) = true := by
  induction remaining with
  | zero => intro messages c h; simp [generateMappingGo] at h
  | succ r ih =>
      intro messages c h
      simp only [generateMappingGo] at h
      cases ha : (mappingAttempt llm validate messages).2 with
      | ok content =>
          rw [ha] at h
          dsimp only at h
          rw [Option.some_inj] at h
          subst h
          exact mappingAttempt_ok_validates llm validate messages content ha
      | error e =>
          rw [ha] at h
          dsimp only at h
          by_cases hr : 0 < r
          · rw [if_pos hr] at h
            exact ih _ c h
          · rw [if_neg hr] at h
            simp at h

/-- The retry recursion makes at most `remaining` LLM attempts. -/
theorem generateMappingGo_count_le (llm : List Msg → Except String MappingContent)
    (validate : String → Except String Unit) (remaining : Nat) :
    ∀ messages : List Msg,
      (generateMappingGo llm validate remaining messages).2 ≤ remaining := by
  induction remaining with
  | zero => intro messages; simp [generateMappingGo]
  | succ r ih =>
      intro messages
      simp only [generateMappingGo]
      cases ha : (mappingAttempt llm validate messages).2 with
      | ok content => simp
      | error e =>
          dsimp only
          by_cases hr : 0 < r
          · rw [if_pos hr]
            exact Nat.succ_le_succ (ih _)
          · rw [if_neg hr]; simp

/-- When the retry recursion gives up, it has used its whole attempt
budget. -/
theorem generateMappingGo_none_count (llm : List Msg → Except String MappingContent)
    (validate : String → Except String Unit) (remaining : Nat) :
    ∀ messages : List Msg,
      (generateMappingGo llm validate remaining messages).1 = none →
      (generateMappingGo llm validate remaining messages).2 = remaining := by
  induction remaining with
  | zero => intro messages _; simp [generateMappingGo]
  | succ r ih =>
      intro messages h
      simp only [generateMappingGo] at h ⊢
      cases ha : (mappingAttempt llm validate messages).2 with
      | ok content => rw [ha] at h; simp at h
      | error e =>
          rw [ha] at h
          dsimp only at h ⊢
          by_cases hr : 0 < r
          · rw [if_pos hr] at h ⊢
            rw [ih _ h]
          · rw [if_neg hr]
            interval_cases r
            rfl

/-- C2: a non-null `generateMapping` result has passed apply-and-validate
against the schema; a failed attempt appends the error as a user message
and retries; in total at most 6 attempts (the initial call plus 5
retries) are made, and `null` is returned exactly when all of them have
been spent without success. -/
theorem generateMapping_validated_or_null (llm : List Msg → Except String MappingContent)
    (validate : String → Except String Unit) (systemPrompt userPrompt : String) :
    (∀ c : MappingContent, generateMapping llm validate systemPrompt userPrompt = some c →
      exceptIsOk (validate c.jsonata) = true) ∧
    generateMappingAttempts llm validate systemPrompt userPrompt ≤ 6 ∧
    (generateMapping llm validate systemPrompt userPrompt = none →
      generateMappingAttempts llm validate systemPrompt userPrompt = 6) ∧
    (∀ (messages : List Msg) (remaining : Nat) (e : String),
      (mappingAttempt llm validate messages).2 = .error e →
      generateMappingGo llm validate (remaining + 2) messages =
        ((generateMappingGo llm validate (remaining + 1)
            ((mappingAttempt llm validate messages).1 ++ [⟨.user, e⟩])).1,
          (generateMappingGo llm validate (remaining + 1)
            ((mappingAttempt llm validate messages).1 ++ [⟨.user, e⟩])).2 + 1)) := by
  refine ⟨?_, ?_, ?_, ?_⟩
  · intro c h
    exact generateMappingGo_some_validates llm validate 6 _ c h
  · exact generateMappingGo_count_le llm validate 6 _
  · intro h
    exact generateMappingGo_none_count llm validate 6 _ h
  · intro messages remaining e he
    show generateMappingGo llm validate ((remaining + 1) + 1) messages = _
    simp only [generateMappingGo]
    rw [he]
    dsimp only
    rw [if_pos (Nat.succ_pos remaining)]

/-- C4 (counterexample): the id assigned by `prepareEndpoint` is the
fresh random UUID of the call, so two endpoint synthesis calls with
identical input and identical payload shape but different UUID draws
produce different ids — the id is not an input-derived MD5 digest. -/
theorem prepareEndpointId_not_content_hash :
    prepareEndpointId "00000000-0000-4000-8000-000000000000" "request" "schema" ≠
      prepareEndpointId "11111111-1111-4111-8111-111111111111" "request" "schema" := by
  decide

/-- C4 (amended): the ids assigned by `prepareExtract` and
`prepareTransform` are the MD5 digest of the canonicalized
(input, payload-schema) pair and hence agree across calls with identical
input and identical payload shape; the id assigned by `prepareEndpoint`
is the fresh random UUID, independent of input and payload. -/
theorem synthesis_id_stability (md5 : String → String) (r1 r2 s1 s2 : String)
    (hr : r1 = r2) (hs : s1 = s2) :
    prepareTransformId md5 r1 s1 = prepareTransformId md5 r2 s2 ∧
    prepareExtractId md5 r1 s1 = prepareExtractId md5 r2 s2 ∧
    prepareTransformId md5 r1 s1 = md5 (hashSource r1 s1) ∧
    ∀ uuid request payloadSchema, prepareEndpointId uuid request payloadSchema = uuid := by
  subst hr
  subst hs
  exact ⟨rfl, rfl, rfl, fun _ _ _ => rfl⟩

/-- C5: queue ids are single-flight. Enqueuing an id already in the
in-flight set is a no-op, while a fresh id joins the FIFO and the set;
every transition preserves the queue invariant, under which each id is
in flight at most once; and when a running task resolves (successfully
or not) its id leaves the in-flight set, so a later enqueue of the same
id executes normally. -/
theorem queue_single_flight :
    (∀ (st : QueueState) (id : String), id ∈ st.jobSet → Queue.enqueue st id = st) ∧
    (∀ (st : QueueState) (id : String), id ∉ st.jobSet →
      (Queue.enqueue st id).queue = st.queue ++ [id] ∧
        (Queue.enqueue st id).jobSet = st.jobSet ++ [id]) ∧
    (∀ st st' : QueueState, QStep st st' → QInv st → QInv st') ∧
    (∀ (st : QueueState) (id : String), QInv st → inFlight st id ≤ 1) ∧
    (∀ (st : QueueState) (id : String) (succeeded : Bool), st.running = some id → QInv st →
      id ∉ st.jobSet.erase id ∧
        QStep st { queue := st.queue, jobSet := st.jobSet.erase id, running := none }) := by
  refine ⟨?_, ?_, ?_, ?_, ?_⟩
  · intro st id h
    simp [Queue.enqueue, h]
  · intro st id h
    simp [Queue.enqueue, h]
  · intro st st' hstep hinv
    obtain ⟨hnq, hns, hqs, hrun⟩ := hinv
    cases hstep with
    | enqueue id =>
        by_cases h : id ∈ st.jobSet
        · simpa [Queue.enqueue, h] using ⟨hnq, hns, hqs, hrun⟩
        · unfold Queue.enqueue
          rw [if_neg h]
          have hidq : id ∉ st.queue := fun hin => h (hqs id hin)
          refine ⟨?_, ?_, ?_, ?_⟩
          · simp [List.nodup_append, hnq, hidq]
          · simp [List.nodup_append, hns, h]
          · intro x hx
            rcases List.mem_append.mp hx with hx | hx
            · exact List.mem_append.mpr (Or.inl (hqs x hx))
            · simp at hx
              subst hx
              simp
          · intro x hrx
            obtain ⟨hxs, hxq⟩ := hrun x hrx
            refine ⟨List.mem_append.mpr (Or.inl hxs), ?_⟩
            intro hx
            rcases List.mem_append.mp hx with hx | hx
            · exact hxq hx
            · simp at hx
              subst hx
              exact h hxs
    | start id rest hr hq =>
        refine ⟨?_, hns, ?_, ?_⟩
        · rw [hq] at hnq
          exact (List.nodup_cons.mp hnq).2
        · intro x hx
          exact hqs x (by rw [hq]; exact List.mem_cons_of_mem _ hx)
        · intro x hrx
          simp at hrx
          subst hrx
          refine ⟨hqs id (by rw [hq]; exact List.mem_cons_self _ _), ?_⟩
          rw [hq] at hnq
          exact (List.nodup_cons.mp hnq).1
    | finish id succeeded hr =>
        refine ⟨hnq, hns.erase id, ?_, ?_⟩
        · intro x hx
          have hxid : x ≠ id := by
            intro hxe
            subst hxe
            exact (hrun x hr).2 hx
          exact (List.mem_erase_of_ne hxid).mpr (hqs x hx)
        · intro x hrx
          simp at hrx
  · intro st id hinv
    obtain ⟨hnq, _, _, hrun⟩ := hinv
    unfold inFlight
    by_cases hr : st.running = some id
    · have hzero : st.queue.count id = 0 := List.count_eq_zero.mpr (hrun id hr).2
      simp [hr, hzero]
    · have hcount : st.queue.count id ≤ 1 := List.nodup_iff_count_le_one.mp hnq id
      simpa [hr] using hcount
  · intro st id succeeded hr hinv
    obtain ⟨_, hns, _, _⟩ := hinv
    exact ⟨List.Nodup.not_mem_erase hns, QStep.finish st id succeeded hr⟩

/-- A segment starting a list is found by the starts-with test. -/
theorem listStartsWith_append (sub rest : List Char) :
    listStartsWith (sub ++ rest) sub = true := by
  induction sub with
  | nil => simp [listStartsWith]
  | cons c cs ih => simp [listStartsWith, ih]

/-- A starts-with hit is an inclusion hit. -/
theorem listIncludes_of_startsWith (s sub : List Char) (h : listStartsWith s sub = true) :
    listIncludes s sub = true := by
  cases s with
  | nil => simpa [listIncludes] using h
  | cons c cs => simp [listIncludes, h]

/-- Inclusion is stable under prepending. -/
theorem listIncludes_append_left (pre s sub : List Char) (h : listIncludes s sub = true) :
    listIncludes (pre ++ s) sub = true := by
  induction pre with
  | nil => simpa using h
  | cons c cs ih => simp [listIncludes, ih]

/-- Any list with the given segment inside is an inclusion hit. -/
theorem listIncludes_of_segment (pre sub post : List Char) :
    listIncludes (pre ++ sub ++ post) sub = true := by
  rw [List.append_assoc]
  exact listIncludes_append_left pre _ _
    (listIncludes_of_startsWith _ _ (listStartsWith_append sub post))

/-- C8 (counterexample): `gpt-4o` is a reasoning model by the
predicate, yet the schema-generation call does not omit the temperature
parameter for it — it sends temperature `0`. -/
theorem schemaGen_temperature_not_omitted :
    isOSeriesModel "gpt-4o" = true ∧ schemaGenTemperature "gpt-4o" 0 = some 0 := by
  constructor
  · decide
  · rfl

/-- C8 (amended): any model name containing `gpt-4o` or `o3` satisfies
the reasoning-model predicate, and endpoint synthesis and mapping
generation omit the temperature parameter for such models; schema
generation does not — it sends temperature `0` for the exact model
`o3-mini`, a numeric temperature for every model starting with `gpt-4`,
and omits the parameter only for the remaining models. -/
theorem reasoning_model_temperature :
    (∀ a b : List Char, isOSeriesModel (String.mk (a ++ "gpt-4o".data ++ b)) = true ∧
      isOSeriesModel (String.mk (a ++ "o3".data ++ b)) = true) ∧
    (∀ (name : String) (retryCount : Nat), isOSeriesModel name = true →
      apiConfigTemperature name retryCount = none ∧ mappingTemperature name retryCount = none) ∧
    (∀ retry : Nat, schemaGenTemperature "o3-mini" retry = some 0) ∧
    (∀ retry : Nat, (schemaGenTemperature "gpt-4o" retry).isSome = true) := by
  refine ⟨?_, ?_, ?_, ?_⟩
  · intro a b
    constructor
    · have h := listIncludes_of_segment a "gpt-4o".data b
      simp only [isOSeriesModel, strIncludes, Bool.or_eq_true]
      exact Or.inl h
    · have h := listIncludes_of_segment a "o3".data b
      simp only [isOSeriesModel, strIncludes, Bool.or_eq_true]
      exact Or.inr h
  · intro name retryCount h
    simp [apiConfigTemperature, mappingTemperature, h]
  · intro retry
    rfl
  · intro retry
    have h1 : ("gpt-4o" == "o3-mini") = false := by decide
    have h2 : strStartsWith "gpt-4o" "gpt-4" = true := by decide
    simp [schemaGenTemperature, h1, h2]

/-! ## Witnesses -/

/-- Witness for C1 (amended): a config whose body references the
unbound `token` aborts with that name and zero calls, a fully bound
body-free config reaches the HTTP call, and a bound config with a
non-JSON body aborts at the parse with zero calls. -/
theorem callEndpoint_validates_before_http_witness :
    callEndpoint cfgBad [] parseNone fetchNull =
        .unresolvedVariables (validateVariables cfgBad []) 0 ∧
      1 ≤ callsOf (callEndpoint cfgGood [] parseNone fetchNull) ∧
      callEndpoint cfgNonJson [] parseNone fetchNull = .bodyParseError 0 :=
  ⟨(callEndpoint_validates_before_http cfgBad [] parseNone fetchNull).1 (by decide),
   (callEndpoint_validates_before_http cfgGood [] parseNone fetchNull).2.1 (by decide)
     (by decide),
   (callEndpoint_validates_before_http cfgNonJson [] parseNone fetchNull).2.2 (by decide) rfl⟩

/-- Witness for C2: an always-accepting run validates its result, an
always-failing run spends all 6 attempts before returning null, and a
failed attempt is retried with the error appended as a user message. -/
theorem generateMapping_validated_or_null_witness :
    exceptIsOk (validateOk "user.first") = true ∧
      generateMappingAttempts llmFail validateOk "s" "u" = 6 ∧
      generateMappingGo llmFail validateOk 2 [] =
        ((generateMappingGo llmFail validateOk 1
            ((mappingAttempt llmFail validateOk []).1 ++ [⟨.user, "API Error"⟩])).1,
          (generateMappingGo llmFail validateOk 1
            ((mappingAttempt llmFail validateOk []).1 ++ [⟨.user, "API Error"⟩])).2 + 1) :=
  ⟨(generateMapping_validated_or_null llmConst validateOk "s" "u").1 ⟨"user.first", 95, "direct"⟩
      rfl,
   (generateMapping_validated_or_null llmFail validateOk "s" "u").2.2.1 rfl,
   (generateMapping_validated_or_null llmFail validateOk "s" "u").2.2.2 [] 0 "API Error" rfl⟩

/-- Witness for C4: the transform id is the digest of the canonical
pre-image, and the endpoint id is the supplied UUID. -/
theorem synthesis_id_stability_witness :
    prepareTransformId md5Stub "req" "sch" = md5Stub (hashSource "req" "sch") ∧
      prepareEndpointId "u" "req" "sch" = "u" :=
  ⟨(synthesis_id_stability md5Stub "req" "req" "sch" "sch" rfl rfl).2.2.1,
   (synthesis_id_stability md5Stub "req" "req" "sch" "sch" rfl rfl).2.2.2 "u" "req" "sch"⟩

/-- Witness for C5: re-enqueuing the running `j1` is a no-op, a fresh
enqueue appends, transitions preserve the invariant, in-flight counts
stay at most one, and finishing removes `j1` from the set. -/
theorem queue_single_flight_witness :
    Queue.enqueue qstRun "j1" = qstRun ∧
      (Queue.enqueue qstIdle "j1").queue = [] ++ ["j1"] ∧
      QInv (Queue.enqueue qstIdle "j1") ∧
      inFlight qstRun "j1" ≤ 1 ∧
      "j1" ∉ qstRun.jobSet.erase "j1" :=
  ⟨queue_single_flight.1 qstRun "j1" (by simp [qstRun]),
   (queue_single_flight.2.1 qstIdle "j1" (by simp [qstIdle])).1,
   queue_single_flight.2.2.1 qstIdle _ (QStep.enqueue qstIdle "j1") (by simp [QInv, qstIdle]),
   queue_single_flight.2.2.2.1 qstRun "j1" (by simp [QInv, qstRun]),
   (queue_single_flight.2.2.2.2 qstRun "j1" true rfl (by simp [QInv, qstRun])).1⟩

/-- Witness for C6: the pagination-free config performs exactly one
call and returns normally. -/
theorem callEndpoint_disabled_single_iteration_witness :
    isSuccess (callEndpoint cfgGood [] parseNone fetchNull) = true ∧
      callsOf (callEndpoint cfgGood [] parseNone fetchNull) = 1 :=
  callEndpoint_disabled_single_iteration cfgGood [] parseNone fetchNull (Or.inl rfl) (by decide)
    (by decide)

/-- Witness for C7 (amended): a page equal to the accumulated results
stops the loop with the accumulation unchanged. -/
theorem page_equal_accumulated_terminates_witness :
    loopGo cfgGood [] parseNone fetchOne 6 1 1 0 [Json.num 1] = finishLoop [Json.num 1] 2 :=
  page_equal_accumulated_terminates cfgGood [] parseNone fetchOne 5 1 1 0 [Json.num 1]
    (.obj []) (by decide) rfl rfl

/-- Witness for C8 (amended): a name embedding `gpt-4o` is a reasoning
model, endpoint synthesis omits its temperature, and schema generation
sends temperature 0 for `o3-mini`. -/
theorem reasoning_model_temperature_witness :
    isOSeriesModel (String.mk ("m-".data ++ "gpt-4o".data ++ "-x".data)) = true ∧
      apiConfigTemperature "gpt-4o" 3 = none ∧
      schemaGenTemperature "o3-mini" 2 = some 0 :=
  ⟨(reasoning_model_temperature.1 "m-".data "-x".data).1,
   (reasoning_model_temperature.2.1 "gpt-4o" 3 (by decide)).1,
   reasoning_model_temperature.2.2.1 2⟩

/-- Witness for C9: offset-based pagination without a page size binds
`limit` to 50 and advances the offset by 50. -/
theorem pagination_default_limit_50_witness :
    (stepPagination cfgOffset 1 0).paginationVars = [("offset", 0), ("limit", 50)] ∧
      (stepPagination cfgOffset 1 0).nextOffset = 0 + 50 :=
  (pagination_default_limit_50 cfgOffset 1 0 ⟨.offsetBased, none⟩ rfl rfl).2 rfl

/-- Witness for C10: a `null` response after results have accumulated
stops the loop and is excluded from the returned data. -/
theorem nonarray_after_results_terminates_witness :
    loopGo cfgGood [] parseNone fetchNull 6 1 1 0 [Json.num 1] = finishLoop [Json.num 1] 2 :=
  nonarray_after_results_terminates cfgGood [] parseNone fetchNull 5 1 1 0 [Json.num 1]
    (.obj []) (by simp) (by decide) rfl rfl
